import Mathlib

/-!
# Verification of the openttd-admin protocol engine

A shallow embedding, over `List Nat` byte sequences, of the Go package
`admin` (file `admin.go`, reproduced in the repository's `README.md`
bundle) of tardisx/openttd-admin, together with proofs about:

* the length-prefixed packet framer inside `listenSocket`,
* the outgoing packet encoders (`sendSocket`, the join message built
  inline in `Connect`, `rconCommand`),
* the NUL-terminated string decoder `extractString`,
* the welcome-packet decoder branch of `listenSocket`,
* the calendar scheduler `dateChanged` / `processCommand` /
  `RegisterDateChange`,
* the read-error handling branch of `listenSocket`,
* the reconnect loop of `Connect`.

Bytes are modelled as `Nat` (values < 256 where the source guarantees it),
Go strings as their byte sequences.  Where the Go code can only exit a
code path by a runtime panic (out-of-range index, out-of-range slice
bound), the embedding returns an explicit failure marker, documented at
each definition.
-/

namespace OpenTTDAdmin

/-- Indexing a byte buffer: `l[i]` for in-range `i`, with an (unused in
faithful paths) default of 0 out of range. -/
def byteAt : List Nat → Nat → Nat
  | [], _ => 0
  | b :: _, 0 => b
  | _ :: rest, i + 1 => byteAt rest i

@[simp] theorem byteAt_nil (i : Nat) : byteAt [] i = 0 := rfl

@[simp] theorem byteAt_cons_zero (b : Nat) (l : List Nat) : byteAt (b :: l) 0 = b := rfl

@[simp] theorem byteAt_cons_succ (b : Nat) (l : List Nat) (i : Nat) :
    byteAt (b :: l) (i + 1) = byteAt l i := rfl

theorem byteAt_append (l l' : List Nat) (i : Nat) (h : i < l.length) :
    byteAt (l ++ l') i = byteAt l i := by
  induction l generalizing i with
  | nil => simp at h
  | cons b rest ih =>
    cases i with
    | zero => rfl
    | succ j =>
      simp only [List.cons_append, byteAt_cons_succ]
      exact ih j (by simpa using Nat.lt_of_succ_lt_succ h)

/-- `binary.LittleEndian.Uint16(b)` on two bytes: `b0 | b1 << 8`. -/
def leUint16 (b0 b1 : Nat) : Nat := b0 + 256 * b1

/-- `binary.LittleEndian.PutUint16`: the two bytes of a 16-bit value,
low byte first. -/
def le16 (n : Nat) : List Nat := [n % 256, n / 256 % 256]

/-- `binary.LittleEndian.Uint32(b)` on four bytes. -/
def leUint32 (b0 b1 b2 b3 : Nat) : Nat :=
  b0 + 256 * b1 + 65536 * b2 + 16777216 * b3

/-- The inner `for` loop of `listenSocket` (admin.go), which repeatedly
extracts complete packets from the head of the accumulated `chunk`:

* fewer than 2 buffered bytes: wait for more data (`continue SocketLoop`);
* `packetSize := binary.LittleEndian.Uint16(chunk[0:2])`; the Go code
  compares `packetSize > uint16(len(chunk))`, so the buffer length is
  truncated to 16 bits in that comparison — modelled by `% 65536`;
* if the packet is complete, `packetType := chunk[2]` and
  `packetData := chunk[3:packetSize]`; for `packetSize < 3` this slice
  expression (or the index `chunk[2]` when the buffer holds 2 bytes)
  violates Go's bounds rules and the goroutine panics — modelled by the
  `Bool` fault flag (`true` = runtime panic, processing stops);
* otherwise emit `(packetType, packetData)`, set
  `chunk = chunk[packetSize:]` and repeat.

The dispatch `if`/`else` chain over `packetType` performs no buffer
mutation and is modelled separately; here we record the emitted
`(type, payload)` pairs in order.  `fuel` bounds the recursion; each
iteration that recurses consumes at least 3 bytes, so the buffer length
is always sufficient fuel (`processChunk_le`). -/
def processChunk : Nat → List Nat → List (Nat × List Nat) × List Nat × Bool
  | 0, chunk => ([], chunk, false)
  | fuel + 1, chunk =>
    if chunk.length < 2 then ([], chunk, false)
    else if chunk.length % 65536 < leUint16 (byteAt chunk 0) (byteAt chunk 1) then
      ([], chunk, false)
    else if leUint16 (byteAt chunk 0) (byteAt chunk 1) < 3 then ([], chunk, true)
    else
      ((byteAt chunk 2,
          (chunk.take (leUint16 (byteAt chunk 0) (byteAt chunk 1))).drop 3) ::
        (processChunk fuel (chunk.drop (leUint16 (byteAt chunk 0) (byteAt chunk 1)))).1,
       (processChunk fuel (chunk.drop (leUint16 (byteAt chunk 0) (byteAt chunk 1)))).2)

/-- One full run of the packet-extraction loop on a buffer: emitted
`(type, payload)` pairs, remaining buffer, and the panic flag. -/
def drain (chunk : List Nat) : List (Nat × List Nat) × List Nat × Bool :=
  processChunk chunk.length chunk

theorem processChunk_nil (fuel : Nat) : processChunk fuel [] = ([], [], false) := by
  cases fuel <;> simp [processChunk]

theorem processChunk_add :
    ∀ (fuel extra : Nat) (c : List Nat), c.length ≤ fuel →
      processChunk (fuel + extra) c = processChunk fuel c := by
  intro fuel
  induction fuel with
  | zero =>
    intro extra c hc
    have hnil : c = [] := List.eq_nil_of_length_eq_zero (Nat.le_zero.mp hc)
    subst hnil
    rw [processChunk_nil, processChunk_nil]
  | succ n ih =>
    intro extra c hc
    have hre : n + 1 + extra = (n + extra) + 1 := by omega
    rw [hre]
    show processChunk ((n + extra) + 1) c = processChunk (n + 1) c
    simp only [processChunk]
    split
    · rfl
    · split
      · rfl
      · split
        · rfl
        · rename_i h1 h2 h3
          have hlen : (c.drop (leUint16 (byteAt c 0) (byteAt c 1))).length ≤ n := by
            rw [List.length_drop]
            omega
          rw [ih extra _ hlen]

theorem processChunk_le (fuel : Nat) (c : List Nat) (h : c.length ≤ fuel) :
    processChunk fuel c = drain c := by
  have hadd := processChunk_add c.length (fuel - c.length) c (Nat.le_refl _)
  rw [Nat.add_sub_cancel' h] at hadd
  rw [hadd, drain]

/-- The defining equation of `drain`, fuel eliminated. -/
theorem drain_eq (c : List Nat) : drain c =
    if c.length < 2 then ([], c, false)
    else if c.length % 65536 < leUint16 (byteAt c 0) (byteAt c 1) then ([], c, false)
    else if leUint16 (byteAt c 0) (byteAt c 1) < 3 then ([], c, true)
    else
      ((byteAt c 2, (c.take (leUint16 (byteAt c 0) (byteAt c 1))).drop 3) ::
          (drain (c.drop (leUint16 (byteAt c 0) (byteAt c 1)))).1,
        (drain (c.drop (leUint16 (byteAt c 0) (byteAt c 1)))).2) := by
  rcases hc : c.length with _ | k
  · have hnil : c = [] := List.eq_nil_of_length_eq_zero hc
    subst hnil
    simp [drain, processChunk]
  · show processChunk c.length c = _
    conv_lhs => rw [hc]
    simp only [processChunk]
    rw [hc]
    split
    · rfl
    · split
      · rfl
      · split
        · rfl
        · rename_i h1 h2 h3
          have hlen : (c.drop (leUint16 (byteAt c 0) (byteAt c 1))).length ≤ k := by
            rw [List.length_drop]
            omega
          rw [processChunk_le k _ hlen]

/-- How a finished `drain` run continues when more raw bytes arrive.  On a
panicked run no further processing happens and the bytes merely pile onto
the dead buffer; otherwise the remainder plus the new bytes are drained. -/
def combineDrain (st : List (Nat × List Nat) × List Nat × Bool) (d : List Nat) :
    List (Nat × List Nat) × List Nat × Bool :=
  match st.2.2 with
  | true => (st.1, st.2.1 ++ d, true)
  | false => (st.1 ++ (drain (st.2.1 ++ d)).1, (drain (st.2.1 ++ d)).2)

theorem drain_append_aux :
    ∀ (n : Nat) (c d : List Nat), c.length ≤ n → c.length + d.length < 65536 →
      drain (c ++ d) = combineDrain (drain c) d := by
  intro n
  induction n with
  | zero =>
    intro c d hc _hlen
    have hnil : c = [] := List.eq_nil_of_length_eq_zero (Nat.le_zero.mp hc)
    subst hnil
    have hd : drain [] = ([], [], false) := rfl
    simp [hd, combineDrain]
  | succ n ih =>
    intro c d hc hlen
    have hclt : c.length < 65536 := by omega
    have hmodc : c.length % 65536 = c.length := Nat.mod_eq_of_lt hclt
    have hmodcd : (c ++ d).length % 65536 = c.length + d.length := by
      rw [List.length_append]
      exact Nat.mod_eq_of_lt hlen
    by_cases h1 : c.length < 2
    · -- too short to contain a header: drain c is a trivial wait
      rw [drain_eq c, if_pos h1]
      simp only [combineDrain]
      simp
    · have hb0 : byteAt (c ++ d) 0 = byteAt c 0 := byteAt_append c d 0 (by omega)
      have hb1 : byteAt (c ++ d) 1 = byteAt c 1 := byteAt_append c d 1 (by omega)
      by_cases h2 : c.length % 65536 < leUint16 (byteAt c 0) (byteAt c 1)
      · -- incomplete packet at the head of c: drain c is a wait
        rw [drain_eq c, if_neg h1, if_pos h2]
        simp only [combineDrain]
        simp
      · by_cases h3 : leUint16 (byteAt c 0) (byteAt c 1) < 3
        · -- undersized header: both runs panic at the same point
          rw [drain_eq c, if_neg h1, if_neg h2, if_pos h3]
          rw [drain_eq (c ++ d), if_neg (by rw [List.length_append]; omega)]
          rw [hb0, hb1]
          rw [if_neg (by rw [hmodcd]; omega), if_pos h3]
          simp [combineDrain]
        · -- a complete packet at the head of both buffers
          have hsz3 : 3 ≤ leUint16 (byteAt c 0) (byteAt c 1) := Nat.le_of_not_lt h3
          have hszle : leUint16 (byteAt c 0) (byteAt c 1) ≤ c.length := by omega
          rw [drain_eq c, if_neg h1, if_neg h2, if_neg h3]
          rw [drain_eq (c ++ d), if_neg (by rw [List.length_append]; omega)]
          rw [hb0, hb1]
          rw [if_neg (by rw [hmodcd]; omega), if_neg h3]
          have hb2 : byteAt (c ++ d) 2 = byteAt c 2 := byteAt_append c d 2 (by omega)
          have htake : (c ++ d).take (leUint16 (byteAt c 0) (byteAt c 1)) =
              c.take (leUint16 (byteAt c 0) (byteAt c 1)) :=
            List.take_append_of_le_length hszle
          have hdrop : (c ++ d).drop (leUint16 (byteAt c 0) (byteAt c 1)) =
              c.drop (leUint16 (byteAt c 0) (byteAt c 1)) ++ d :=
            List.drop_append_of_le_length hszle
          rw [hb2, htake, hdrop]
          have hrec := ih (c.drop (leUint16 (byteAt c 0) (byteAt c 1))) d
            (by rw [List.length_drop]; omega)
            (by rw [List.length_drop]; omega)
          rw [hrec]
          -- fold the right-hand side through combineDrain
          rcases hr : drain (c.drop (leUint16 (byteAt c 0) (byteAt c 1))) with ⟨ps, rem, fault⟩
          cases fault <;> simp [combineDrain, hr]

/-- Draining `c ++ d` is draining `c` and then continuing on the remainder
with `d` appended — provided the combined buffer stays below 65536 bytes
(the Go comparison `packetSize > uint16(len(chunk))` truncates the buffer
length to 16 bits, so beyond that the decomposition fails; see the
counterexample for C1). -/
theorem drain_append (c d : List Nat) (hlen : c.length + d.length < 65536) :
    drain (c ++ d) = combineDrain (drain c) d :=
  drain_append_aux c.length c d (Nat.le_refl _) hlen

/-- The remainder a drain leaves is itself fully drained: running the loop
again on it emits nothing (no-fault runs, buffer under 64 KiB). -/
theorem drain_remainder (c : List Nat) (hlen : c.length < 65536)
    (hf : (drain c).2.2 = false) :
    drain ((drain c).2.1) = ([], (drain c).2.1, false) := by
  have h := drain_append c [] (by simpa using hlen)
  rw [List.append_nil] at h
  rcases hdc : drain c with ⟨ps, rem, fault⟩
  rw [hdc] at hf
  simp only at hf
  subst hf
  rw [hdc] at h
  simp only [combineDrain] at h
  rw [List.append_nil] at h
  simp only
  rcases hrem : drain rem with ⟨ps2, rem2, f2⟩
  rw [hrem] at h
  simp only [Prod.mk.injEq] at h
  obtain ⟨hps, hrem2, hf2⟩ := h
  have hl : ps.length = ps.length + ps2.length := by
    have hlen2 := congrArg List.length hps
    simpa using hlen2
  have hps2 : ps2 = [] := List.eq_nil_of_length_eq_zero (by omega)
  subst hps2
  subst hf2
  subst hrem2
  rfl

theorem drain_remainder_length :
    ∀ (n : Nat) (c : List Nat), c.length ≤ n → (drain c).2.1.length ≤ c.length := by
  intro n
  induction n with
  | zero =>
    intro c hc
    have hnil : c = [] := List.eq_nil_of_length_eq_zero (Nat.le_zero.mp hc)
    subst hnil
    simp [drain, processChunk]
  | succ n ih =>
    intro c hc
    rw [drain_eq c]
    split
    · simp
    · split
      · simp
      · split
        · simp
        · rename_i h1 h2 h3
          simp only
          have hrec := ih (c.drop (leUint16 (byteAt c 0) (byteAt c 1)))
            (by rw [List.length_drop]; omega)
          calc (drain (c.drop (leUint16 (byteAt c 0) (byteAt c 1)))).2.1.length
              ≤ (c.drop (leUint16 (byteAt c 0) (byteAt c 1))).length := hrec
            _ ≤ c.length := by rw [List.length_drop]; omega

/-- One outer iteration of `listenSocket`: a socket read delivers `data`,
which is appended to the buffer (`chunk = append(chunk, socketData[0:s]...)`)
and the extraction loop runs.  A panicked goroutine is dead: once the fault
flag is set no further feeding has any effect. -/
def feedStep (st : List (Nat × List Nat) × List Nat × Bool) (data : List Nat) :
    List (Nat × List Nat) × List Nat × Bool :=
  match st.2.2 with
  | true => st
  | false => (st.1 ++ (drain (st.2.1 ++ data)).1, (drain (st.2.1 ++ data)).2)

/-- Feeding a sequence of raw reads to a fresh reader (`var chunk []byte`):
all packets emitted in order, the final buffer, and the panic flag. -/
def feedChunks (chunks : List (List Nat)) : List (Nat × List Nat) × List Nat × Bool :=
  chunks.foldl feedStep ([], [], false)

theorem feedChunks_join :
    ∀ (css : List (List Nat)) (acc : List (Nat × List Nat)) (rem : List Nat),
      drain rem = ([], rem, false) →
      rem.length + css.flatten.length < 65536 →
      (drain (rem ++ css.flatten)).2.2 = false →
      List.foldl feedStep (acc, rem, false) css =
        (acc ++ (drain (rem ++ css.flatten)).1, (drain (rem ++ css.flatten)).2) := by
  intro css
  induction css with
  | nil =>
    intro acc rem hrem _hlen _hnf
    simp only [List.foldl_nil, List.flatten_nil, List.append_nil, hrem]
  | cons c css ih =>
    intro acc rem hrem hlen hnf
    have hjoin : (c :: css).flatten = c ++ css.flatten := by simp
    rw [hjoin] at hlen hnf
    have hlen1 : (rem ++ c).length + css.flatten.length < 65536 := by
      rw [List.length_append]
      rw [List.length_append] at hlen
      omega
    have hsplit : drain ((rem ++ c) ++ css.flatten) = combineDrain (drain (rem ++ c)) css.flatten :=
      drain_append _ _ hlen1
    rw [List.append_assoc] at hsplit
    -- the first read cannot have panicked, else the whole run would show the fault
    rcases hrc : drain (rem ++ c) with ⟨ps1, rem1, f1⟩
    cases f1 with
    | true =>
      exfalso
      rw [hsplit, hrc] at hnf
      simp [combineDrain] at hnf
    | false =>
      have hstep : feedStep (acc, rem, false) c = (acc ++ ps1, rem1, false) := by
        simp only [feedStep, hrc]
      rw [List.foldl_cons, hstep]
      have hrem1 : drain rem1 = ([], rem1, false) := by
        have := drain_remainder (rem ++ c) (by rw [List.length_append] at hlen1 ⊢; omega)
          (by rw [hrc])
        rw [hrc] at this
        exact this
      have hrem1len : rem1.length ≤ (rem ++ c).length := by
        have := drain_remainder_length (rem ++ c).length (rem ++ c) (Nat.le_refl _)
        rw [hrc] at this
        exact this
      have hlen2 : rem1.length + css.flatten.length < 65536 := by
        rw [List.length_append] at hrem1len
        rw [List.length_append] at hlen
        omega
      have hnf2 : (drain (rem1 ++ css.flatten)).2.2 = false := by
        rw [hsplit, hrc] at hnf
        simp only [combineDrain] at hnf
        exact hnf
      rw [ih (acc ++ ps1) rem1 hrem1 hlen2 hnf2]
      rw [hjoin, hsplit, hrc]
      simp only [combineDrain]
      simp [List.append_assoc]

/-- The over-the-wire layout of one packet, as both the spec and the
decoder state it: little-endian u16 total length (counting its own two
bytes and the type byte), type byte, payload. -/
def encodePacket (p : Nat × List Nat) : List Nat :=
  le16 (p.2.length + 3) ++ [p.1] ++ p.2

/-- A packet stream: the packets' encodings, concatenated. -/
def encodeStream (ps : List (Nat × List Nat)) : List Nat :=
  (ps.map encodePacket).flatten

/-- A well-formed packet for the wire format: byte-sized type, byte-sized
payload entries, and a total length that fits the u16 length field. -/
def ValidPacket (p : Nat × List Nat) : Prop :=
  p.1 < 256 ∧ p.2.length + 3 < 65536 ∧ ∀ b ∈ p.2, b < 256

instance (p : Nat × List Nat) : Decidable (ValidPacket p) := by
  unfold ValidPacket
  exact inferInstance

theorem length_encodePacket (p : Nat × List Nat) :
    (encodePacket p).length = p.2.length + 3 := by
  simp [encodePacket, le16]

theorem drain_encodePacket (p : Nat × List Nat) (hv : ValidPacket p) :
    drain (encodePacket p) = ([p], [], false) := by
  obtain ⟨_ht, hlen, _hb⟩ := hv
  have hsz : leUint16 (byteAt (encodePacket p) 0) (byteAt (encodePacket p) 1) =
      p.2.length + 3 := by
    simp only [encodePacket, le16]
    simp only [List.cons_append, List.nil_append, byteAt_cons_zero, byteAt_cons_succ]
    simp only [leUint16]
    omega
  rw [drain_eq]
  rw [length_encodePacket, hsz]
  rw [if_neg (by omega)]
  rw [if_neg (by rw [Nat.mod_eq_of_lt hlen]; omega)]
  rw [if_neg (by omega)]
  have hb2 : byteAt (encodePacket p) 2 = p.1 := by
    simp [encodePacket, le16, byteAt]
  have htake : (encodePacket p).take (p.2.length + 3) = encodePacket p := by
    rw [← length_encodePacket]
    exact List.take_length _
  have hdropall : (encodePacket p).drop (p.2.length + 3) = [] := by
    rw [← length_encodePacket]
    exact List.drop_length _
  have hdrop3 : (encodePacket p).drop 3 = p.2 := by
    simp [encodePacket, le16]
  rw [hb2, htake, hdropall, hdrop3]
  have hnil : drain [] = ([], [], false) := rfl
  rw [hnil]

theorem drain_encodeStream :
    ∀ (ps : List (Nat × List Nat)), (∀ p ∈ ps, ValidPacket p) →
      (encodeStream ps).length < 65536 →
      drain (encodeStream ps) = (ps, [], false) := by
  intro ps
  induction ps with
  | nil =>
    intro _hv _hlen
    have : encodeStream [] = [] := by simp [encodeStream]
    rw [this]
    rfl
  | cons p ps ih =>
    intro hv hlen
    have hcons : encodeStream (p :: ps) = encodePacket p ++ encodeStream ps := by
      simp [encodeStream]
    rw [hcons] at hlen ⊢
    rw [List.length_append] at hlen
    rw [drain_append _ _ hlen]
    rw [drain_encodePacket p (hv p (by simp))]
    simp only [combineDrain]
    rw [List.nil_append]
    rw [ih (fun q hq => hv q (by simp [hq])) (by omega)]
    simp

theorem byteAt_encodePacket_zero (p : Nat × List Nat) :
    byteAt (encodePacket p) 0 = (p.2.length + 3) % 256 := by
  simp only [encodePacket, le16, List.cons_append, List.nil_append, byteAt_cons_zero]

theorem byteAt_encodePacket_one (p : Nat × List Nat) :
    byteAt (encodePacket p) 1 = (p.2.length + 3) / 256 % 256 := by
  simp only [encodePacket, le16, List.cons_append, List.nil_append,
    byteAt_cons_succ, byteAt_cons_zero]

/-- A buffer whose head declares more bytes than the (16-bit-truncated)
buffer length: the framer leaves everything buffered and waits. -/
theorem drain_stop (c : List Nat) (h2 : 2 ≤ c.length)
    (hs : c.length % 65536 < leUint16 (byteAt c 0) (byteAt c 1)) :
    drain c = ([], c, false) := by
  rw [drain_eq, if_neg (by omega), if_pos hs]

/-- C1 (amended): framing is split-invariant for streams shorter than
65536 bytes.  For any sequence of raw byte chunks whose concatenation is a
valid packet stream (every packet's little-endian u16 total length is at
least 3, counts the 2 length bytes, the type byte and the payload, and
the whole stream is under 64 KiB), feeding the chunks to the framer in any
split — including one byte at a time — yields the same ordered sequence of
(type, payload) pairs as feeding the full stream at once, with nothing
discarded or misparsed and an empty final buffer.  The 64 KiB bound is
forced by `framer_split_counterexample`: the source compares the declared
size against `uint16(len(chunk))`, the buffer length truncated to 16 bits. -/
theorem framer_split_invariant (css : List (List Nat)) (ps : List (Nat × List Nat))
    (hv : ∀ p ∈ ps, ValidPacket p)
    (hlen : css.flatten.length < 65536)
    (hjoin : css.flatten = encodeStream ps) :
    feedChunks css = (ps, [], false) ∧ feedChunks [css.flatten] = (ps, [], false) := by
  have hslen : (encodeStream ps).length < 65536 := by rw [← hjoin]; exact hlen
  have hdrain : drain (encodeStream ps) = (ps, [], false) := drain_encodeStream ps hv hslen
  constructor
  · have h := feedChunks_join css [] [] rfl (by simpa using hlen)
      (by simp only [List.nil_append]; rw [hjoin, hdrain])
    rw [feedChunks, h]
    simp only [List.nil_append]
    rw [hjoin, hdrain]
  · rw [feedChunks]
    simp only [List.foldl_cons, List.foldl_nil]
    show feedStep ([], [], false) css.flatten = _
    simp only [feedStep, List.nil_append]
    rw [hjoin, hdrain]

/-- C1 witness: the stream of packets (107, [84]) and (200, []), fed one
byte at a time and fed whole, both produce exactly those two packets. -/
theorem framer_split_invariant_witness :
    feedChunks [[4], [0], [107], [84], [3], [0], [200]] =
      ([(107, [84]), (200, [])], [], false) ∧
    feedChunks [[4, 0, 107, 84, 3, 0, 200]] =
      ([(107, [84]), (200, [])], [], false) :=
  framer_split_invariant [[4], [0], [107], [84], [3], [0], [200]]
    [(107, [84]), (200, [])] (by decide) (by decide) (by decide)

/-- A 65535-byte packet (the largest the u16 length field can declare). -/
def bigPacket : Nat × List Nat := (1, List.replicate 65532 0)

/-- A minimal packet: type 2, empty payload. -/
def smallPacket : Nat × List Nat := (2, [])

/-- C1 counterexample: split-invariance fails as literally claimed.  The
valid two-packet stream `bigPacket ++ smallPacket` is 65538 bytes long;
fed one packet per read both packets are emitted, but fed in a single
read the framer compares the declared size 65535 against
`uint16(65538) = 2` and parks forever — the emitted sequences differ. -/
theorem framer_split_counterexample :
    (feedChunks [encodePacket bigPacket, encodePacket smallPacket]).1 ≠
      (feedChunks [encodePacket bigPacket ++ encodePacket smallPacket]).1 := by
  have hplen : bigPacket.2.length = 65532 := List.length_replicate _ _
  have hv1 : ValidPacket bigPacket := by
    refine ⟨?_, ?_, ?_⟩
    · show (1 : Nat) < 256
      norm_num
    · rw [hplen]
      norm_num
    · intro b hb
      have hb0 : b = 0 := List.eq_of_mem_replicate hb
      omega
  have hv2 : ValidPacket smallPacket := by
    refine ⟨?_, ?_, ?_⟩
    · show (2 : Nat) < 256
      norm_num
    · show ([] : List Nat).length + 3 < 65536
      norm_num
    · intro b hb
      simp [smallPacket] at hb
  have hd1 := drain_encodePacket bigPacket hv1
  have hd2 := drain_encodePacket smallPacket hv2
  have hstep1 : feedStep ([], [], false) (encodePacket bigPacket) =
      ([bigPacket], [], false) := by
    show ([] ++ (drain ([] ++ encodePacket bigPacket)).1,
        (drain ([] ++ encodePacket bigPacket)).2) = ([bigPacket], [], false)
    rw [List.nil_append (encodePacket bigPacket), hd1]
    rfl
  have hstep2 : feedStep ([bigPacket], [], false) (encodePacket smallPacket) =
      ([bigPacket, smallPacket], [], false) := by
    show ([bigPacket] ++ (drain ([] ++ encodePacket smallPacket)).1,
        (drain ([] ++ encodePacket smallPacket)).2) = ([bigPacket, smallPacket], [], false)
    rw [List.nil_append (encodePacket smallPacket), hd2]
    rfl
  have hleft : feedChunks [encodePacket bigPacket, encodePacket smallPacket] =
      ([bigPacket, smallPacket], [], false) := by
    show List.foldl feedStep ([], [], false) [encodePacket bigPacket, encodePacket smallPacket] =
      ([bigPacket, smallPacket], [], false)
    rw [List.foldl_cons, hstep1, List.foldl_cons, hstep2, List.foldl_nil]
  have hblen : (encodePacket bigPacket).length = 65535 := by
    rw [length_encodePacket, hplen]
  have hslen2 : smallPacket.2.length = 0 := rfl
  have hlen : (encodePacket bigPacket ++ encodePacket smallPacket).length = 65538 := by
    rw [List.length_append, length_encodePacket, length_encodePacket, hplen, hslen2]
  have hb0 : byteAt (encodePacket bigPacket ++ encodePacket smallPacket) 0 = 255 := by
    rw [byteAt_append _ _ 0 (by rw [hblen]; norm_num), byteAt_encodePacket_zero, hplen]
  have hb1 : byteAt (encodePacket bigPacket ++ encodePacket smallPacket) 1 = 255 := by
    rw [byteAt_append _ _ 1 (by rw [hblen]; norm_num), byteAt_encodePacket_one, hplen]
  have hstop : drain (encodePacket bigPacket ++ encodePacket smallPacket) =
      ([], encodePacket bigPacket ++ encodePacket smallPacket, false) := by
    apply drain_stop
    · rw [hlen]; norm_num
    · rw [hlen, hb0, hb1]; norm_num [leUint16]
  have hstepR : feedStep ([], [], false) (encodePacket bigPacket ++ encodePacket smallPacket) =
      ([], encodePacket bigPacket ++ encodePacket smallPacket, false) := by
    show ([] ++ (drain ([] ++ (encodePacket bigPacket ++ encodePacket smallPacket))).1,
        (drain ([] ++ (encodePacket bigPacket ++ encodePacket smallPacket))).2) =
      ([], encodePacket bigPacket ++ encodePacket smallPacket, false)
    rw [List.nil_append (encodePacket bigPacket ++ encodePacket smallPacket), hstop]
    rfl
  have hright : feedChunks [encodePacket bigPacket ++ encodePacket smallPacket] =
      ([], encodePacket bigPacket ++ encodePacket smallPacket, false) := by
    show List.foldl feedStep ([], [], false)
        [encodePacket bigPacket ++ encodePacket smallPacket] =
      ([], encodePacket bigPacket ++ encodePacket smallPacket, false)
    rw [List.foldl_cons, hstepR, List.foldl_nil]
  rw [hleft, hright]
  simp only [ne_eq]
  intro hcontra
  exact List.cons_ne_nil bigPacket [smallPacket] hcontra

/-- The ways the reader goroutine `listenSocket` can terminate.
`signalDisconnect` is a `server.disconnected <- true` followed by
`return` — only this path wakes `Connect` into its reconnect cycle.
`silentReturn` is a bare `return` with no channel send.  `panicked` is an
unrecovered Go runtime panic, which aborts the whole process. -/
inductive ReaderExit where
  | signalDisconnect : ReaderExit
  | silentReturn : ReaderExit
  | panicked : ReaderExit
deriving DecidableEq

/-- What becomes of the reader after the extraction loop runs on a buffer:
a runtime panic if the loop hit an out-of-bounds slice, otherwise the
reader keeps running (`none`). -/
def framerOutcome (c : List Nat) : Option ReaderExit :=
  match (drain c).2.2 with
  | true => some ReaderExit.panicked
  | false => none

/-- C5 (amended): a buffer holding at least 2 bytes whose head declares a
total length of 0 or 1 neither loops forever on a non-advancing buffer nor
performs an unchecked out-of-bounds read — the run terminates at once with
the panic flag set: `packetData := chunk[3:packetSize]` (or `chunk[2]` on
a 2-byte buffer) violates Go's bounds rules and the goroutine panics.
The panic aborts the process; it is not converted into a disconnect of
the current connection, so no reconnect cycle is triggered (that part of
the original claim fails, see `undersized_header_no_reconnect`). -/
theorem undersized_header_panics (c : List Nat) (h2 : 2 ≤ c.length)
    (hlen : c.length < 65536)
    (hs : leUint16 (byteAt c 0) (byteAt c 1) < 2) :
    drain c = ([], c, true) := by
  rw [drain_eq, if_neg (by omega),
    if_neg (by rw [Nat.mod_eq_of_lt hlen]; omega), if_pos (by omega)]

/-- C5 witness: a buffer declaring total length 0. -/
theorem undersized_header_panics_witness :
    drain [0, 0, 9] = ([], [0, 0, 9], true) :=
  undersized_header_panics [0, 0, 9] (by norm_num) (by norm_num)
    (by norm_num [byteAt, leUint16])

/-- C5 counterexample: on the buffer [0, 0, 9] (declared length 0) the
reader's outcome is a runtime panic, not the disconnect signal that the
claim says triggers the reconnect cycle. -/
theorem undersized_header_no_reconnect :
    framerOutcome [0, 0, 9] = some ReaderExit.panicked ∧
    framerOutcome [0, 0, 9] ≠ some ReaderExit.signalDisconnect := by
  constructor <;> decide

/-- Result of `extractString(bytes, start)` (admin.go):
`ok content next` models the in-loop `return string(buildString), i + 1`;
`failed` models the final `return "", -1` (reached only when the loop body
never runs, i.e. `start > len(bytes)`); `panicked` models the index
expression `bytes[i]` evaluated at `i = len(bytes)`, which the loop bound
`i <= len(bytes)` permits and which is out of range in Go. -/
inductive ExtractResult where
  | ok : List Nat → Nat → ExtractResult
  | failed : ExtractResult
  | panicked : ExtractResult
deriving DecidableEq

/-- The scanning loop of `extractString`, walking the suffix
`bytes[start:]` with `i` the absolute index and `acc` the bytes collected
so far (`buildString`).  When the suffix is exhausted the loop condition
`i <= len(bytes)` still holds once more and `bytes[i]` is read out of
range: a runtime panic. -/
def extractLoop : List Nat → List Nat → Nat → ExtractResult
  | _acc, [], _i => ExtractResult.panicked
  | acc, b :: rest, i =>
    if b = 0 then ExtractResult.ok acc (i + 1)
    else extractLoop (acc ++ [b]) rest (i + 1)

/-- `extractString(bytes, start)` from admin.go:

```go
func extractString(bytes []byte, start int) (string, int) {
    var buildString []byte
    for i := start; i <= len(bytes); i++ {
        if bytes[i] == 0 {
            return string(buildString), i + 1
        }
        buildString = append(buildString, bytes[i])
    }
    return "", -1
}
```

For `start > len(bytes)` the loop never runs and `("", -1)` is returned.
Otherwise the loop scans from `start`; if it finds a zero byte it returns
the collected content and the following offset, and if it runs off the
end it evaluates `bytes[len(bytes)]` — an out-of-range index, hence a
runtime panic (the `("", -1)` return is unreachable on that path). -/
def extractString (bytes : List Nat) (start : Nat) : ExtractResult :=
  if bytes.length < start then ExtractResult.failed
  else extractLoop [] (bytes.drop start) start

/-- C4: the NUL-terminated string decoder, on a terminated field, returns
the content and the offset one past the terminator (checked at
`[72, 0]`, start 0, and mid-buffer at `[1, 2, 0, 9]`, start 1); but on a
field with no zero byte between the start offset and the end of the
slice it evaluates `bytes[len(bytes)]`, an out-of-range index that
panics the goroutine — it does not signal a decode failure.  The
`return "", -1` failure path exists in the source yet is unreachable for
any in-range start offset, because the loop bound is `i <= len(bytes)`
instead of `i < len(bytes)`: the claim describes the evident intent and
the code deviates from it (code bug). -/
theorem extractString_eval :
    extractString [72, 0] 0 = ExtractResult.ok [72] 2 ∧
    extractString [1, 2, 0, 9] 1 = ExtractResult.ok [2] 3 ∧
    extractString [65] 0 = ExtractResult.panicked ∧
    extractString [] 0 = ExtractResult.panicked ∧
    extractString [65, 66] 5 = ExtractResult.failed := by
  refine ⟨?_, ?_, ?_, ?_, ?_⟩ <;> decide

/-- The ways the reader goroutine reacts to a read error (admin.go,
`listenSocket`):

```go
if err != nil {
    if cErr, ok := err.(*net.OpError); ok {
        if cErr.Err.Error() == "read: connection reset by peer" {
            log.Println(...)
            server.connection = nil
            server.disconnected <- true
            return
        }
    } else {
        log.Println("Error occurred on socket: ", err)
        server.connection = nil
        server.disconnected <- true
        return
    }
    return
}
```

`isOpError` says whether the error is a `*net.OpError`; `message` is the
inner error text for that case.  A reset-by-peer OpError and any
non-OpError signal the disconnect; an OpError with any other message
falls past the inner `if` (whose `else` is attached to the type
assertion, not to the message test) and hits the bare `return`:
the reader exits without sending on `server.disconnected`. -/
def handleReadError (isOpError : Bool) (message : String) : ReaderExit :=
  match isOpError with
  | true =>
    if message = "read: connection reset by peer" then ReaderExit.signalDisconnect
    else ReaderExit.silentReturn
  | false => ReaderExit.signalDisconnect

/-- C6: a reset-by-peer error and a non-OpError read error terminate the
reader with the disconnect signal, as the claim says; but an OpError
carrying any other message (here "read: connection timed out") makes the
reader return silently — no disconnect signal is ever sent, so `Connect`
stays blocked on `<-server.disconnected` and never re-enters the
reconnect cycle.  The two explicit branches both signal, and the spec
says every read error returns to the reconnect loop, so the fall-through
is a mis-scoped `else` (code bug): the claim fails on the code. -/
theorem handleReadError_eval :
    handleReadError true "read: connection reset by peer" = ReaderExit.signalDisconnect ∧
    handleReadError false "EOF" = ReaderExit.signalDisconnect ∧
    handleReadError true "read: connection timed out" = ReaderExit.silentReturn ∧
    handleReadError true "read: connection timed out" ≠ ReaderExit.signalDisconnect := by
  refine ⟨rfl, rfl, ?_, ?_⟩ <;> decide

/-- Packet-type constant: the admin announces and authenticates itself. -/
def adminPacketAdminJOIN : Nat := 0

/-- Packet-type constant: set the update frequency of an information kind. -/
def adminPacketAdminUPDATE_FREQUENCY : Nat := 2

/-- Packet-type constant: send a remote console command. -/
def adminPacketAdminRCON : Nat := 5

/-- Update-category constant: updates about the date of the game. -/
def adminUpdateDATE : Nat := 0

/-- Frequency-bit constant: information delivered on a daily basis. -/
def adminFrequencyDAILY : Nat := 2

/-- `sendSocket(protocol, data)` from admin.go: a 3-byte header —
`size := uint16(len(data) + 3)` written little-endian (the `uint16`
conversion truncates mod 65536), then `toSend[2] = byte(protocol)` —
followed by the payload. -/
def sendSocket (protocol : Nat) (data : List Nat) : List Nat :=
  le16 ((data.length + 3) % 65536) ++ [protocol % 256] ++ data

/-- The body of the join (authenticate) message built inline in `Connect`:
type byte, then password, bot name and bot version, each NUL-terminated. -/
def joinBody (password botName botVersion : List Nat) : List Nat :=
  [adminPacketAdminJOIN] ++ password ++ [0] ++ botName ++ [0] ++ botVersion ++ [0]

/-- The full join message as `Connect` sends it: `size := len(toSend) + 2`
and the prefix `append([]byte{byte(size), 0x0}, toSend...)` — only the low
byte of the size, with the high byte hard-coded to zero. -/
def joinMsg (password botName botVersion : List Nat) : List Nat :=
  [(joinBody password botName botVersion).length + 2 - 256 *
      (((joinBody password botName botVersion).length + 2) / 256), 0] ++
    joinBody password botName botVersion

/-- The spec's framing words, for comparison with the code's encoders:
"every outgoing message is built as type-byte + payload bytes, then
wrapped with a 2-byte little-endian length prefix equal to
payload length + 3". -/
def specFrame (ptype : Nat) (payload : List Nat) : List Nat :=
  le16 (payload.length + 3) ++ [ptype] ++ payload

theorem joinMsg_lowByte (password botName botVersion : List Nat) :
    joinMsg password botName botVersion =
      [((joinBody password botName botVersion).length + 2) % 256, 0] ++
        joinBody password botName botVersion := by
  rw [joinMsg, Nat.mod_def]

/-- C7 (amended): messages sent through `sendSocket` — Set Update
Frequency and RCON Command — are encoded as a 2-byte little-endian length
prefix, the type byte and the payload, with the length value equal to
3 plus the payload byte count, for every byte-sized type and every
payload shorter than 65533 bytes (beyond that the `uint16` size
conversion wraps).  The Authenticate message is framed separately in
`Connect` with the prefix `[byte(size), 0]`; that equals the little-endian
encoding of 3 plus its payload size exactly when the total
`6 + len(password) + len(botName) + len(botVersion)` is at most 255 —
the hard-coded zero high byte makes larger join messages mis-framed
(`join_length_prefix_counterexample`). -/
theorem outgoing_framing (protocol : Nat) (data : List Nat)
    (hp : protocol < 256) (hd : data.length + 3 < 65536)
    (password botName botVersion : List Nat)
    (hj : password.length + botName.length + botVersion.length + 6 ≤ 255) :
    sendSocket protocol data = specFrame protocol data ∧
    joinMsg password botName botVersion =
      specFrame adminPacketAdminJOIN
        (password ++ [0] ++ botName ++ [0] ++ botVersion ++ [0]) := by
  constructor
  · rw [sendSocket, specFrame, Nat.mod_eq_of_lt hd, Nat.mod_eq_of_lt hp]
  · have hbody : joinBody password botName botVersion =
        [adminPacketAdminJOIN] ++ (password ++ [0] ++ botName ++ [0] ++ botVersion ++ [0]) := by
      rw [joinBody]
      simp [List.append_assoc]
    have hblen : (joinBody password botName botVersion).length =
        password.length + botName.length + botVersion.length + 4 := by
      rw [joinBody]
      simp
      omega
    rw [joinMsg_lowByte, hbody, specFrame, le16]
    have hlen2 : (password ++ [0] ++ botName ++ [0] ++ botVersion ++ [0]).length + 3 =
        password.length + botName.length + botVersion.length + 6 := by
      simp
      omega
    rw [hlen2]
    have hsz : ([adminPacketAdminJOIN] ++
        (password ++ [0] ++ botName ++ [0] ++ botVersion ++ [0])).length + 2 =
        password.length + botName.length + botVersion.length + 6 := by
      simp
      omega
    rw [hsz]
    have hm : (password.length + botName.length + botVersion.length + 6) % 256 =
        password.length + botName.length + botVersion.length + 6 :=
      Nat.mod_eq_of_lt (by omega)
    have hq : (password.length + botName.length + botVersion.length + 6) / 256 = 0 :=
      Nat.div_eq_of_lt (by omega)
    rw [hm, hq]
    rfl

/-- C7 witness: a small RCON frame and a small join message both match
the spec framing. -/
theorem outgoing_framing_witness :
    sendSocket 5 [104, 0] = specFrame 5 [104, 0] ∧
    joinMsg [97] [98] [99] =
      specFrame adminPacketAdminJOIN [97, 0, 98, 0, 99, 0] :=
  outgoing_framing 5 [104, 0] (by norm_num) (by norm_num)
    [97] [98] [99] (by norm_num)

/-- C7 counterexample: with a 250-byte password, a 1-byte bot name and a
1-byte bot version the join message's total size is 258; `Connect` frames
it as `[2, 0]` (low byte, hard-coded zero) where the little-endian u16
encoding of 3 + payload count is `[2, 1]` — the claim fails for this
payload. -/
theorem join_length_prefix_counterexample :
    joinMsg (List.replicate 250 97) [98] [99] ≠
      specFrame adminPacketAdminJOIN
        (List.replicate 250 97 ++ [0] ++ [98] ++ [0] ++ [99] ++ [0]) := by
  intro hcontra
  have h1 : byteAt (joinMsg (List.replicate 250 97) [98] [99]) 1 = 0 := by
    rw [joinMsg_lowByte]
    rfl
  have h2 : byteAt (specFrame adminPacketAdminJOIN
      (List.replicate 250 97 ++ [0] ++ [98] ++ [0] ++ [99] ++ [0])) 1 = 1 := by
    rw [specFrame, le16]
    have hplen : (List.replicate 250 97 ++ [0] ++ [98] ++ [0] ++ [99] ++ [0]).length = 255 := by
      simp only [List.length_append, List.length_replicate, List.length_cons,
        List.length_nil]
    rw [hplen]
    rfl
  rw [hcontra, h2] at h1
  exact one_ne_zero h1

/-- The bytes `Connect` sends on every fresh connection, in order: the
join (authenticate) message, then — immediately after — the Set Update
Frequency message registering `adminUpdateDATE` at `adminFrequencyDAILY`,
with the category id and the bitmask each written as little-endian u16
(`updateDateCmd`/`updateDateDaily` in the source) and the pair framed by
`sendSocket`. -/
def connectSends (password botName botVersion : List Nat) : List (List Nat) :=
  [joinMsg password botName botVersion,
   sendSocket adminPacketAdminUPDATE_FREQUENCY
     (le16 adminUpdateDATE ++ le16 adminFrequencyDAILY)]

/-- C8: on each new connection, the message sent immediately after the
authentication message is the Set Update Frequency packet for update
category `adminUpdateDATE = 0` at the daily frequency bit
`adminFrequencyDAILY = 0x02`, whose payload is the 2-byte little-endian
category id followed by the 2-byte little-endian bitmask —
concretely `[0, 0, 2, 0]`, framed as `[7, 0, 2, 0, 0, 2, 0]`.
(The historical variant in the pre-library code registered
`adminFrequencyMONTHLY = 0x08` here; the current source registers
DAILY, which is what this claim and the spec state.) -/
theorem connect_registers_daily_date (password botName botVersion : List Nat) :
    connectSends password botName botVersion =
      [joinMsg password botName botVersion,
       sendSocket adminPacketAdminUPDATE_FREQUENCY
         (le16 adminUpdateDATE ++ le16 adminFrequencyDAILY)] ∧
    adminUpdateDATE = 0 ∧ adminFrequencyDAILY = 2 ∧
    le16 adminUpdateDATE ++ le16 adminFrequencyDAILY = [0, 0, 2, 0] ∧
    sendSocket adminPacketAdminUPDATE_FREQUENCY
      (le16 adminUpdateDATE ++ le16 adminFrequencyDAILY) = [7, 0, 2, 0, 0, 2, 0] :=
  ⟨rfl, rfl, rfl, rfl, rfl⟩

/-- The byte sequence of an ASCII string — Go strings are byte strings,
and every string this program substitutes or frames is ASCII. -/
def strBytes (s : String) : List Nat :=
  s.toList.map Char.toNat

/-- `strings.Replace(s, old, new, -1)` specialised to the two-byte
patterns this program uses (`%Y`, `%M`, `%D`): scan left to right; on
`'%'` followed by the token byte emit the replacement and continue after
the match (the replacement itself is not rescanned); otherwise advance
one byte.  All non-overlapping occurrences are replaced. -/
def replaceToken (token : Nat) (repl : List Nat) : List Nat → List Nat
  | [] => []
  | [b] => [b]
  | b :: b2 :: rest =>
    if b = 37 ∧ b2 = token then repl ++ replaceToken token repl rest
    else b :: replaceToken token repl (b2 :: rest)

/-- The decimal digits of a number, as ASCII bytes. -/
def decimalBytes (n : Nat) : List Nat :=
  (Nat.toDigits 10 n).map Char.toNat

/-- `fmt.Sprintf` with a `%0wd` verb on a non-negative value: the decimal
digits, zero-padded on the left to a minimum width of `w`. -/
def padZero (w n : Nat) : List Nat :=
  List.replicate (w - (decimalBytes n).length) 48 ++ decimalBytes n

/-- A calendar date as the scheduler consumes it (`dt.Year()`,
`dt.Month()` as its numeric value 1–12, `dt.Day()`). -/
structure GameDate where
  year : Nat
  month : Nat
  day : Nat
deriving DecidableEq

/-- `processCommand(command, dt)` from admin.go: replace every `%Y` with
the year under `%04d`, then every `%M` with the month under `%02d`, then
every `%D` with the day under `%02d` (byte values: `%` = 37, `Y` = 89,
`M` = 77, `D` = 68). -/
def processCommand (command : List Nat) (dt : GameDate) : List Nat :=
  replaceToken 68 (padZero 2 dt.day)
    (replaceToken 77 (padZero 2 dt.month)
      (replaceToken 89 (padZero 4 dt.year) command))

/-- C3: substitution before dispatch replaces every occurrence of `%Y`
with the 4-digit zero-padded year, every `%M` with the 2-digit zero-padded
month and every `%D` with the 2-digit zero-padded day, each token's
occurrences independently and all of them (checked on a template that
repeats every token); in particular the template
`say "Hello %Y-%M-%D"` with date 2020-11-05 yields exactly
`say "Hello 2020-11-05"`. -/
theorem processCommand_subst (command : List Nat) (dt : GameDate) :
    processCommand command dt =
      replaceToken 68 (padZero 2 dt.day)
        (replaceToken 77 (padZero 2 dt.month)
          (replaceToken 89 (padZero 4 dt.year) command)) ∧
    processCommand (strBytes "say \"Hello %Y-%M-%D\"") ⟨2020, 11, 5⟩ =
      strBytes "say \"Hello 2020-11-05\"" ∧
    processCommand (strBytes "%Y.%Y %M.%M %D.%D") ⟨7, 11, 5⟩ =
      strBytes "0007.0007 11.11 05.05" :=
  ⟨rfl, by decide, by decide⟩

/-- The `OpenTTDServer` struct (admin.go).  The `net.Conn` handle is
modelled by its presence (`connection`); the two signalling channels are
concurrency primitives with no data content and are not part of the
modelled state.  Strings are byte sequences. -/
structure OpenTTDServer where
  connection : Option Unit
  ServerName : List Nat
  ServerVersion : List Nat
  ServerDedicated : Bool
  MapName : List Nat
  MapSeed : Nat
  MapLandscape : Nat
  MapX : Nat
  MapY : Nat
  rconDaily : List (List Nat)
  rconMonthly : List (List Nat)
  rconYearly : List (List Nat)
deriving DecidableEq

/-- The zero value `OpenTTDServer{}` that `openttd_multitool` starts
from: nil connection, empty strings, false flag, zero numbers, nil
registration lists. -/
def emptyServer : OpenTTDServer :=
  ⟨none, [], [], false, [], 0, 0, 0, 0, [], [], []⟩

/-- `RegisterDateChange(period, command)` from admin.go: append the
command to the matching period list, or `panic("bad period " + period)`
for any other period name.  The panic — an immediate fatal stop of the
process — is modelled as the `Except.error` carrying the panic message. -/
def RegisterDateChange (server : OpenTTDServer) (period : String) (command : List Nat) :
    Except String OpenTTDServer :=
  if period = "daily" then
    Except.ok { server with rconDaily := server.rconDaily ++ [command] }
  else if period = "monthly" then
    Except.ok { server with rconMonthly := server.rconMonthly ++ [command] }
  else if period = "yearly" then
    Except.ok { server with rconYearly := server.rconYearly ++ [command] }
  else
    Except.error ("bad period " ++ period)

/-- C9: registering a command under a period name other than "daily",
"monthly" or "yearly" is fatal — the process panics with
"bad period " + period — while registering under each valid period name
succeeds and appends the command to that period's list (in order). -/
theorem registerDateChange_spec (server : OpenTTDServer) (period : String)
    (command : List Nat)
    (hbad : period ≠ "daily" ∧ period ≠ "monthly" ∧ period ≠ "yearly") :
    RegisterDateChange server period command = Except.error ("bad period " ++ period) ∧
    RegisterDateChange server "daily" command =
      Except.ok { server with rconDaily := server.rconDaily ++ [command] } ∧
    RegisterDateChange server "monthly" command =
      Except.ok { server with rconMonthly := server.rconMonthly ++ [command] } ∧
    RegisterDateChange server "yearly" command =
      Except.ok { server with rconYearly := server.rconYearly ++ [command] } := by
  obtain ⟨h1, h2, h3⟩ := hbad
  refine ⟨?_, rfl, rfl, rfl⟩
  rw [RegisterDateChange, if_neg h1, if_neg h2, if_neg h3]

/-- C9 witness: "weekly" is rejected with the panic message, "daily"
appends. -/
theorem registerDateChange_spec_witness :
    RegisterDateChange emptyServer "weekly" [97] = Except.error "bad period weekly" ∧
    RegisterDateChange emptyServer "daily" [97] =
      Except.ok { emptyServer with rconDaily := emptyServer.rconDaily ++ [[97]] } :=
  ⟨(registerDateChange_spec emptyServer "weekly" [97]
      ⟨by decide, by decide, by decide⟩).1,
   (registerDateChange_spec emptyServer "weekly" [97]
      ⟨by decide, by decide, by decide⟩).2.1⟩

/-- `rconCommand(command)` from admin.go: append a NUL byte to the
command text and send it as an RCON packet through `sendSocket`. -/
def rconCommand (command : List Nat) : List Nat :=
  sendSocket adminPacketAdminRCON (command ++ [0])

/-- `dateChanged(dt)` from admin.go, as the sequence of RCON frames it
writes to the socket, in order:

```go
for _, rconCommand := range server.rconDaily {
    server.rconCommand(processCommand(rconCommand, dt))
}
if dt.Day() == 1 {
    for _, rconCommand := range server.rconMonthly { ... }
}
if dt.Day() == 1 && dt.Month() == 1 {
    for _, rconCommand := range server.rconYearly { ... }
}
```

Each loop iteration appends one sent frame to the outbox. -/
def dateChanged (server : OpenTTDServer) (dt : GameDate) : List (List Nat) :=
  let out1 := server.rconDaily.foldl
    (fun acc c => acc ++ [rconCommand (processCommand c dt)]) []
  let out2 := if dt.day = 1 then
      server.rconMonthly.foldl
        (fun acc c => acc ++ [rconCommand (processCommand c dt)]) out1
    else out1
  if dt.day = 1 ∧ dt.month = 1 then
    server.rconYearly.foldl
      (fun acc c => acc ++ [rconCommand (processCommand c dt)]) out2
  else out2

theorem foldl_append_one {α β : Type} (f : α → β) :
    ∀ (l : List α) (acc : List β),
      l.foldl (fun a c => a ++ [f c]) acc = acc ++ l.map f := by
  intro l
  induction l with
  | nil => intro acc; simp
  | cons x xs ih =>
    intro acc
    rw [List.foldl_cons, ih, List.map_cons]
    simp

/-- C2: a date-changed event with date `dt` dispatches exactly the daily
commands (always), then the monthly commands when `dt.day = 1`, then the
yearly commands when `dt.day = 1` and `dt.month = 1` — each list in
registration order, each command substituted and sent as one RCON frame,
all synchronously within the one event. -/
theorem dateChanged_dispatch (server : OpenTTDServer) (dt : GameDate) :
    dateChanged server dt =
      server.rconDaily.map (fun c => rconCommand (processCommand c dt)) ++
      (if dt.day = 1 then
        server.rconMonthly.map (fun c => rconCommand (processCommand c dt)) else []) ++
      (if dt.day = 1 ∧ dt.month = 1 then
        server.rconYearly.map (fun c => rconCommand (processCommand c dt)) else []) := by
  rw [dateChanged]
  by_cases hd : dt.day = 1
  · by_cases hm : dt.month = 1
    · simp only [if_pos hd, if_pos (show dt.day = 1 ∧ dt.month = 1 from ⟨hd, hm⟩),
        foldl_append_one, List.nil_append, List.append_assoc]
    · simp only [if_pos hd,
        if_neg (show ¬(dt.day = 1 ∧ dt.month = 1) from fun hc => hm hc.2),
        foldl_append_one, List.nil_append, List.append_nil]
  · simp only [if_neg hd,
      if_neg (show ¬(dt.day = 1 ∧ dt.month = 1) from fun hc => hd hc.1),
      foldl_append_one, List.nil_append, List.append_nil]

/-- A server with one yearly registration, for the scheduler examples. -/
def yearlyServer : OpenTTDServer := { emptyServer with rconYearly := [strBytes "save y"] }

/-- A server with the same command registered daily and monthly. -/
def dailyMonthlyServer : OpenTTDServer :=
  { emptyServer with rconDaily := [strBytes "say hi"], rconMonthly := [strBytes "say hi"] }

/-- C2 instance, the spec's own test: one command registered under
"yearly" fires on January 1 and not on February 1; one command registered
under both "daily" and "monthly" fires exactly twice on a day-1 event,
daily before monthly. -/
theorem dateChanged_examples :
    dateChanged yearlyServer ⟨2020, 1, 1⟩ = [rconCommand (strBytes "save y")] ∧
    dateChanged yearlyServer ⟨2020, 2, 1⟩ = [] ∧
    dateChanged dailyMonthlyServer ⟨2020, 3, 1⟩ =
      [rconCommand (strBytes "say hi"), rconCommand (strBytes "say hi")] := by
  refine ⟨?_, ?_, ?_⟩ <;> decide

/-- The per-iteration state mutations of `Connect`'s reconnect loop
(admin.go), up to the point where it blocks on `<-server.disconnected`:
the loop dials, stores the fresh transport in `server.connection`,
creates the two fresh signalling channels, and sends the join and
update-frequency messages.  No statement in the loop body writes any of
the cached server-reported fields (`ServerName`, `ServerVersion`,
`ServerDedicated`, `MapName`, `MapSeed`, `MapLandscape`, `MapX`, `MapY`)
or the registration lists. -/
def connectSetup (server : OpenTTDServer) : OpenTTDServer :=
  { server with connection := some () }

/-- The result of one incoming-packet handler: the updated server state,
or `none` when the handler's index/slice arithmetic goes out of range and
the goroutine panics. -/
def welcomeFields (server : OpenTTDServer) (payload : List Nat) : Option OpenTTDServer :=
  match extractString payload 0 with
  | ExtractResult.ok name next1 =>
    match extractString payload next1 with
    | ExtractResult.ok version next2 =>
      if next2 < payload.length then
        let server1 := { server with ServerName := name, ServerVersion := version }
        let server2 :=
          if byteAt payload next2 = 0 then { server1 with ServerDedicated := false }
          else if byteAt payload next2 = 1 then { server1 with ServerDedicated := true }
          else server1
        match extractString payload (next2 + 1) with
        | ExtractResult.ok mapName next3 =>
          if next3 + 13 ≤ payload.length then
            some { server2 with
              MapName := mapName,
              MapSeed := leUint32 (byteAt payload next3) (byteAt payload (next3 + 1))
                (byteAt payload (next3 + 2)) (byteAt payload (next3 + 3)),
              MapLandscape := byteAt payload (next3 + 4),
              MapX := leUint16 (byteAt payload (next3 + 9)) (byteAt payload (next3 + 10)),
              MapY := leUint16 (byteAt payload (next3 + 11)) (byteAt payload (next3 + 12)) }
          else none
        | _ => none
      else none
    | _ => none
  | _ => none

/-- A concrete Welcome payload: server name "A", version "1",
dedicated flag 1, map name "M", seed 9, landscape 3, a skipped 4-byte
date field, map width 64, map height 128. -/
def welcomePayloadExample : List Nat :=
  [65, 0, 49, 0, 1, 77, 0, 9, 0, 0, 0, 3, 0, 0, 0, 0, 64, 0, 128, 0]

/-- The server state after decoding `welcomePayloadExample` on a fresh
server, then losing the connection (the reader nils the connection before
signalling) — the state `Connect`'s next loop iteration starts from. -/
def serverAfterWelcome : OpenTTDServer :=
  { (welcomeFields emptyServer welcomePayloadExample).getD emptyServer with
      connection := none }

/-- C10 (amended): the reconnect loop does not reset the cached
server-reported state.  A new connection attempt re-dials, recreates the
signalling channels and re-sends the handshake, but leaves server name,
server version, dedicated flag, map name, map seed, map landscape, map
width and map height exactly as the previous connection's Welcome decode
left them; they are only ever overwritten by the next Welcome decode. -/
theorem connectSetup_preserves_state (server : OpenTTDServer) :
    (connectSetup server).ServerName = server.ServerName ∧
    (connectSetup server).ServerVersion = server.ServerVersion ∧
    (connectSetup server).ServerDedicated = server.ServerDedicated ∧
    (connectSetup server).MapName = server.MapName ∧
    (connectSetup server).MapSeed = server.MapSeed ∧
    (connectSetup server).MapLandscape = server.MapLandscape ∧
    (connectSetup server).MapX = server.MapX ∧
    (connectSetup server).MapY = server.MapY :=
  ⟨rfl, rfl, rfl, rfl, rfl, rfl, rfl, rfl⟩

/-- C10 counterexample: after the Welcome decode of
`welcomePayloadExample` the cached server name is "A" (byte 65); the next
reconnect attempt still observes it — not the empty value the claim
requires — before any new Welcome packet arrives. -/
theorem reconnect_keeps_stale_state :
    serverAfterWelcome.ServerName = [65] ∧
    (connectSetup serverAfterWelcome).ServerName = [65] ∧
    (connectSetup serverAfterWelcome).ServerName ≠ emptyServer.ServerName := by
  refine ⟨?_, ?_, ?_⟩ <;> decide

end OpenTTDAdmin